import Mathlib

/-!
Verification of the OSCAR scoring and explainability pipeline against its
specification.  The frontend service layer (`src/frontend/src/services/api.js`,
the profile page) is embedded directly from the JavaScript source.  The backend
scoring pipeline (composite scorer, similarity engine, difficulty classifier,
experience-level derivation) is not present in the source tree, so those parts
are modelled from the specification text, as marked on each definition.
-/

/-! ## Frontend API layer (embedded from src/frontend/src/services/api.js) -/

/-- JavaScript `x || d` on an optional number: `undefined` and `0` are falsy,
so both fall back to the default. -/
def jsOrNum (x : Option Nat) (d : Nat) : Nat :=
  match x with
  | none => d
  | some v => if v = 0 then d else v

/-- JavaScript `x || d` on an optional string: `undefined` and `""` are falsy. -/
def jsOrStr (x : Option String) (d : String) : String :=
  match x with
  | none => d
  | some s => if s = "" then d else s

/-- Options object accepted by `recommendRepos` (absent field = `none`). -/
structure RepoOptions where
  limit : Option Nat := none
  min_stars : Option Nat := none
  languages : Option (List String) := none
  exclude_repos : Option (List String) := none
deriving Repr, DecidableEq

/-- Request body posted to `/recommend-repos`. -/
structure RepoRequestBody where
  github_username : String
  limit : Nat
  min_stars : Nat
  languages : Option (List String)
  exclude_repos : Option (List String)
deriving Repr, DecidableEq

/-- Body built by `recommendRepos` in api.js: `limit: options.limit || 10`,
`min_stars: options.min_stars || 10`, `languages: options.languages || null`,
`exclude_repos: options.exclude_repos || null` (an array, even empty, is
truthy in JavaScript, so `|| null` only replaces an absent field). -/
def recommendReposBody (username : String) (options : RepoOptions) : RepoRequestBody :=
  { github_username := username
    limit := jsOrNum options.limit 10
    min_stars := jsOrNum options.min_stars 10
    languages := options.languages
    exclude_repos := options.exclude_repos }

/-- Options object accepted by `recommendIssues`. -/
structure IssueOptions where
  limit : Option Nat := none
  difficulty : Option String := none
  labels : Option (List String) := none
deriving Repr, DecidableEq

/-- Request body posted to `/recommend-issues`. -/
structure IssueRequestBody where
  github_username : String
  limit : Nat
  difficulty : String
  labels : Option (List String)
deriving Repr, DecidableEq

/-- Body built by `recommendIssues` in api.js: `limit: options.limit || 20`,
`difficulty: options.difficulty || 'beginner'`, `labels: options.labels || null`. -/
def recommendIssuesBody (username : String) (options : IssueOptions) : IssueRequestBody :=
  { github_username := username
    limit := jsOrNum options.limit 20
    difficulty := jsOrStr options.difficulty "beginner"
    labels := options.labels }

/-- The profile page (`loadProfile`): `languageCount = Object.keys(languages).length || 3`
then `dynamicLimit = Math.max(30, languageCount * 30)`. -/
def profileDynamicLimit (languages : List String) : Nat :=
  let languageCount := if languages.length = 0 then 3 else languages.length
  max 30 (languageCount * 30)

/-- The repo-recommendation request issued by the profile page:
`recommendRepos(username, { limit: dynamicLimit })`. -/
def loadProfileRepoRequest (username : String) (languages : List String) : RepoRequestBody :=
  recommendReposBody username { limit := some (profileDynamicLimit languages) }

/-! ## Difficulty classifier and time estimates (spec §4.4, §4.6) -/

/-- Modelled from the spec: issue difficulty classification. -/
inductive Difficulty where
  | beginner
  | intermediate
  | advanced
deriving Repr, DecidableEq

/-- Modelled from the spec: the "good first issue"/"easy" label family that
forces a beginner classification. -/
def beginnerLabelFamily : List String :=
  ["good first issue", "good-first-issue", "easy", "beginner"]

/-- Modelled from the spec §4.4: label-based override (explicit
"good first issue"/"easy" label → beginner; "help wanted" alone →
intermediate), falling back to comment-count thresholds (≤3 → beginner,
4–15 → intermediate, >15 → advanced) when no label signal exists. -/
def classifyDifficulty (labels : List String) (comments_count : Nat) : Difficulty :=
  if labels.any (fun l => beginnerLabelFamily.contains l) then .beginner
  else if labels.contains "help wanted" then .intermediate
  else if comments_count ≤ 3 then .beginner
  else if comments_count ≤ 15 then .intermediate
  else .advanced

/-- Modelled from the spec §4.6: the table-driven estimated-time buckets
(beginner → "1-2 hours", intermediate → "half day", advanced → "1+ day"). -/
def estimatedTime : Difficulty → String
  | .beginner => "1-2 hours"
  | .intermediate => "half day"
  | .advanced => "1+ day"

/-! ## Experience level (spec §3, frontend tooltip in SkillProfile.jsx) -/

/-- Modelled from the spec: user experience level. -/
inductive ExperienceLevel where
  | beginner
  | intermediate
  | advanced
deriving Repr, DecidableEq

/-- Modelled from the spec: points for repository count (5/10/20+ → 1/2/3). -/
def repoPoints (repos : Nat) : Nat :=
  if 20 ≤ repos then 3 else if 10 ≤ repos then 2 else if 5 ≤ repos then 1 else 0

/-- Modelled from the spec: points for follower count (5/20/50+ → 1/2/3). -/
def followerPoints (followers : Nat) : Nat :=
  if 50 ≤ followers then 3 else if 20 ≤ followers then 2 else if 5 ≤ followers then 1 else 0

/-- Modelled from the spec: points for star count (5/20/100+ → 1/2/3). -/
def starPoints (stars : Nat) : Nat :=
  if 100 ≤ stars then 3 else if 20 ≤ stars then 2 else if 5 ≤ stars then 1 else 0

/-- Modelled from the spec: the 0–9 point total over repo count, follower
count, and star count. -/
def experiencePoints (repos followers stars : Nat) : Nat :=
  repoPoints repos + followerPoints followers + starPoints stars

/-- Modelled from the spec: thresholds 0–3 → beginner, 4–6 → intermediate,
7–9 → advanced. -/
def experienceLevel (repos followers stars : Nat) : ExperienceLevel :=
  let pts := experiencePoints repos followers stars
  if pts ≤ 3 then .beginner
  else if pts ≤ 6 then .intermediate
  else .advanced

/-! ## Composite Scorer (spec §4.4), modelled from the spec -/

/-- Modelled from the spec: final scores are clamped to the interval [0,1]. -/
def clamp01 (x : ℚ) : ℚ := max 0 (min 1 x)

/-- Modelled from the spec: the non-textual and similarity signals of one
candidate, as consumed by the Composite Scorer (the cosine similarity `sim`
is the Similarity Engine's output for this candidate). -/
structure CandidateSignals where
  sim : ℚ
  language : String
  stars : Nat
  forks : Nat
  watchers : Nat
  labels : List String
  hasContributingGuide : Bool
  readmeLength : Nat
  updatedAt : Nat
deriving Repr, DecidableEq

/-- Modelled from the spec: scorer configuration.  `log1pStars` stands for the
host library's floating-point `log(1 + stars)`; no claim depends on its
values, so it is kept as a parameter.  `langBonus` is the exact-language-match
bonus of §4.4 and `minReadmeLength` the non-trivial-README threshold. -/
structure ScorerConfig where
  log1pStars : Nat → ℚ
  langBonus : ℚ
  minReadmeLength : Nat

/-- Modelled from the spec: recency boost linearly decaying from 1.0 (updated
within 30 days) to 0.2 (updated over 365 days ago). -/
def recencyBoost (daysAgo : Nat) : ℚ :=
  if daysAgo ≤ 30 then 1
  else if 365 ≤ daysAgo then 0.2
  else 1 - 0.8 * ((daysAgo : ℚ) - 30) / 335

/-- Modelled from the spec: raw activity signal `log(1 + stars) × recency_boost`,
with recency measured against the explicit as-of timestamp. -/
def rawActivity (cfg : ScorerConfig) (asOf : Nat) (c : CandidateSignals) : ℚ :=
  cfg.log1pStars c.stars * recencyBoost ((asOf - c.updatedAt) / 86400)

/-- Modelled from the spec: raw growth signal, a blend of fork count and
watcher count (the spec fixes no blend weights, so the sum is used). -/
def rawGrowth (c : CandidateSignals) : ℚ :=
  (c.forks : ℚ) + (c.watchers : ℚ)

/-- Minimum of a list of rationals (0 for the empty list, which the
normalizer never consults). -/
def listMin : List ℚ → ℚ
  | [] => 0
  | x :: xs => xs.foldl min x

/-- Maximum of a list of rationals (0 for the empty list). -/
def listMax : List ℚ → ℚ
  | [] => 0
  | x :: xs => xs.foldl max x

/-- Modelled from the spec: batch min-max normalization over the current
candidate set, defaulting to 1.0 when the batch minimum equals the batch
maximum (single-candidate batches) instead of dividing by zero. -/
def minMaxNormalize (xs : List ℚ) : List ℚ :=
  let lo := listMin xs
  let hi := listMax xs
  xs.map fun x => if hi = lo then 1 else (x - lo) / (hi - lo)

/-- Modelled from the spec: skill-match sub-score — the cosine similarity,
boosted by the exact-language-match bonus when the candidate's dominant
language is among the user's top languages, capped so it never exceeds 1.0. -/
def skillMatchScore (cfg : ScorerConfig) (userTopLangs : List String) (c : CandidateSignals) : ℚ :=
  min 1 (c.sim + if userTopLangs.contains c.language then cfg.langBonus else 0)

/-- Modelled from the spec: beginner-friendliness — beginner-label family
presence (0.4), contributing guide (0.3), non-trivial README (0.3), summed
and capped at 1.0. -/
def beginnerFriendlinessScore (cfg : ScorerConfig) (c : CandidateSignals) : ℚ :=
  min 1 ((if c.labels.any (fun l => beginnerLabelFamily.contains l) then 0.4 else 0)
    + (if c.hasContributingGuide then 0.3 else 0)
    + (if cfg.minReadmeLength ≤ c.readmeLength then 0.3 else 0))

/-- Modelled from the spec: the four named sub-scores retained for
explanation. -/
structure ScoreBreakdown where
  skillMatch : ℚ
  activity : ℚ
  beginnerFriendliness : ℚ
  growthPotential : ℚ
deriving Repr, DecidableEq

/-- Modelled from the spec: the final composite
`0.4·skill_match + 0.2·activity + 0.2·beginner_friendliness + 0.2·growth_potential`,
clamped to [0,1]. -/
def finalScore (b : ScoreBreakdown) : ℚ :=
  clamp01 (0.4 * b.skillMatch + 0.2 * b.activity
    + 0.2 * b.beginnerFriendliness + 0.2 * b.growthPotential)

/-- Modelled from the spec: one scored candidate, carrying its stable
original-order index and star count for the ranking tie-break. -/
structure Scored where
  idx : Nat
  stars : Nat
  breakdown : ScoreBreakdown
  score : ℚ
deriving Repr, DecidableEq

/-- Modelled from the spec §4.4: score a whole batch — two passes, first the
batch-relative min-max normalization of the raw activity and growth signals,
then the per-candidate composite. -/
def scoreBatch (cfg : ScorerConfig) (userTopLangs : List String) (asOf : Nat)
    (cs : List CandidateSignals) : List Scored :=
  let acts := minMaxNormalize (cs.map (rawActivity cfg asOf))
  let gps := minMaxNormalize (cs.map rawGrowth)
  ((List.range cs.length).zip (cs.zip (acts.zip gps))).map fun p =>
    let b : ScoreBreakdown :=
      { skillMatch := skillMatchScore cfg userTopLangs p.2.1
        activity := p.2.2.1
        beginnerFriendliness := beginnerFriendlinessScore cfg p.2.1
        growthPotential := p.2.2.2 }
    { idx := p.1, stars := p.2.1.stars, breakdown := b, score := finalScore b }

/-! ## Ranking (spec §3, §4.4), modelled from the spec -/

/-- Modelled from the spec: the sort order of the ranking stage — score
descending, ties broken by candidate stars descending, then by the stable
original-order index ascending. -/
def rankLE (a b : Scored) : Bool :=
  decide (b.score < a.score ∨ (a.score = b.score ∧
    (b.stars < a.stars ∨ (a.stars = b.stars ∧ a.idx ≤ b.idx))))

/-- Modelled from the spec: a scored candidate with its 1-based rank. -/
structure Ranked where
  rank : Nat
  item : Scored
deriving Repr, DecidableEq

/-- Assign consecutive ranks starting from `n` down a sorted list. -/
def attachRanks : Nat → List Scored → List Ranked
  | _, [] => []
  | n, s :: rest => { rank := n, item := s } :: attachRanks (n + 1) rest

/-- Modelled from the spec: stable sort by the ranking order, then assign
1-based ranks after sorting.  Deterministic: a pure function of the batch. -/
def rankBatch (l : List Scored) : List Ranked :=
  attachRanks 1 (l.mergeSort rankLE)

/-- Modelled from the spec §5, §8: the full pipeline run.  `Env` stands for
the ambient environment (wall clock, randomness source); the pipeline takes
an explicit as-of timestamp instead of reading the environment. -/
structure Env where
  wallClock : Nat
  randomSeed : Nat
deriving Repr, DecidableEq

/-- Modelled from the spec: run the scoring pipeline on a batch under an
ambient environment, with recency parameterized by the explicit as-of
timestamp. -/
def runPipeline (env : Env) (cfg : ScorerConfig) (userTopLangs : List String)
    (asOf : Nat) (cs : List CandidateSignals) : List Ranked :=
  rankBatch (scoreBatch cfg userTopLangs asOf cs)

/-! ## Similarity Engine (spec §4.3), modelled from the spec -/

/-- Modelled from the spec: term frequency — occurrences of a term in a
tokenized document. -/
def termFreq (t : String) (doc : List String) : Nat := doc.count t

/-- Modelled from the spec: document frequency of a term over the corpus. -/
def docFreq (corpus : List (List String)) (t : String) : Nat :=
  (corpus.filter fun d => d.contains t).length

/-- Modelled from the spec: inverse document frequency.  The spec fixes no
formula beyond "down-weighting common terms"; any non-negative weighting
satisfies the stated properties, so the smoothed quotient is used. -/
def idf (corpus : List (List String)) (t : String) : ℚ :=
  (corpus.length : ℚ) / ((docFreq corpus t : ℚ) + 1)

/-- Modelled from the spec: the vocabulary — distinct corpus terms ordered by
document frequency descending, capped at the configured maximum size. -/
def buildVocab (maxVocab : Nat) (corpus : List (List String)) : List String :=
  ((corpus.flatten.dedup).mergeSort fun s t =>
    decide (docFreq corpus t ≤ docFreq corpus s)).take maxVocab

/-- Modelled from the spec: the TF-IDF vector of one document over the
selected vocabulary. -/
def tfidfVector (corpus : List (List String)) (vocab : List String)
    (doc : List String) : List ℚ :=
  vocab.map fun t => (termFreq t doc : ℚ) * idf corpus t

/-- Dot product of two rational vectors (truncating at the shorter one). -/
def dotL : List ℚ → List ℚ → ℚ
  | a :: u, b :: v => a * b + dotL u v
  | _, _ => 0

/-- Modelled from the spec: cosine similarity between two vectors, 0 when
either vector is zero. -/
noncomputable def cosineSim (u v : List ℚ) : ℝ :=
  if dotL u u = 0 ∨ dotL v v = 0 then 0
  else ((dotL u v : ℚ) : ℝ) / (Real.sqrt ((dotL u u : ℚ) : ℝ) * Real.sqrt ((dotL v v : ℚ) : ℝ))

/-- Modelled from the spec: the Similarity Engine's output — one similarity
per candidate, plus the "insufficient corpus" signal consumed by the
Cold-Start Handler. -/
structure SimilarityResult where
  sims : List ℝ
  insufficientCorpus : Bool

/-- Modelled from the spec §4.3: build the TF-IDF model over the corpus
(user-profile document plus every candidate document) and compute each
candidate's cosine similarity to the user profile.  A degenerate corpus
(fewer than 2 non-empty documents, or an empty vocabulary after filtering)
yields similarity 0 for every candidate together with the insufficient-corpus
signal; the engine is a total function, so the condition never escapes as an
error. -/
noncomputable def similarityEngine (maxVocab : Nat) (userDoc : List String)
    (candidateDocs : List (List String)) : SimilarityResult :=
  let corpus := userDoc :: candidateDocs
  let vocab := buildVocab maxVocab corpus
  if (corpus.filter fun d => d ≠ []).length < 2 ∨ vocab = [] then
    { sims := candidateDocs.map fun _ => 0, insufficientCorpus := true }
  else
    { sims := candidateDocs.map fun d =>
        cosineSim (tfidfVector corpus vocab userDoc) (tfidfVector corpus vocab d)
      insufficientCorpus := false }

/-! ## Helper lemmas -/

lemma minMaxNormalize_singleton (x : ℚ) : minMaxNormalize [x] = [1] := by
  simp [minMaxNormalize, listMin, listMax]

/-! ## Claim theorems -/

/-- C1: for every candidate scored by the Composite Scorer, the final score
equals 0.4 times the skill-match sub-score plus 0.2 times the activity
sub-score plus 0.2 times the beginner-friendliness sub-score plus 0.2 times
the growth-potential sub-score, clamped to [0,1]. -/
theorem claim_C1 (cfg : ScorerConfig) (userTopLangs : List String) (asOf : Nat)
    (cs : List CandidateSignals) (s : Scored) (hs : s ∈ scoreBatch cfg userTopLangs asOf cs) :
    s.score = clamp01 (0.4 * s.breakdown.skillMatch + 0.2 * s.breakdown.activity
      + 0.2 * s.breakdown.beginnerFriendliness + 0.2 * s.breakdown.growthPotential) := by
  simp only [scoreBatch, List.mem_map] at hs
  obtain ⟨p, hp, rfl⟩ := hs
  rfl

/-- Witness for C1 at a concrete one-candidate batch. -/
theorem claim_C1_witness :
    (⟨0, 0, ⟨0, 1, 0, 1⟩, 0.4⟩ : Scored).score
      = clamp01 (0.4 * (⟨0, 0, ⟨0, 1, 0, 1⟩, 0.4⟩ : Scored).breakdown.skillMatch
        + 0.2 * (⟨0, 0, ⟨0, 1, 0, 1⟩, 0.4⟩ : Scored).breakdown.activity
        + 0.2 * (⟨0, 0, ⟨0, 1, 0, 1⟩, 0.4⟩ : Scored).breakdown.beginnerFriendliness
        + 0.2 * (⟨0, 0, ⟨0, 1, 0, 1⟩, 0.4⟩ : Scored).breakdown.growthPotential) :=
  claim_C1 ⟨fun _ => 0, 0, 1⟩ [] 0 [⟨0, "Python", 0, 0, 0, [], false, 0, 0⟩]
    ⟨0, 0, ⟨0, 1, 0, 1⟩, 0.4⟩ (by
      have hbatch : scoreBatch ⟨fun _ => 0, 0, 1⟩ [] 0 [⟨0, "Python", 0, 0, 0, [], false, 0, 0⟩]
          = [⟨0, 0, ⟨0, 1, 0, 1⟩, 0.4⟩] := by
        norm_num [scoreBatch, minMaxNormalize_singleton, List.range_succ, List.range_zero,
          List.zip_cons_cons, List.zip_nil_right, rawActivity, rawGrowth, recencyBoost,
          skillMatchScore, beginnerFriendlinessScore, finalScore, clamp01, min_def, max_def]
      rw [hbatch]
      exact List.mem_singleton_self _)

/-- C4: the batch min-max normalization returns 1.0 on a single-candidate
batch (min = max) instead of dividing by zero, and the pipeline's activity
and growth-potential sub-scores of a single-candidate batch are both 1;
everything is a total function, so nothing raises. -/
theorem claim_C4 :
    (∀ x : ℚ, minMaxNormalize [x] = [1])
    ∧ (∀ (cfg : ScorerConfig) (userTopLangs : List String) (asOf : Nat)
        (c : CandidateSignals),
        (scoreBatch cfg userTopLangs asOf [c]).map
          (fun s => (s.breakdown.activity, s.breakdown.growthPotential)) = [(1, 1)]) := by
  refine ⟨minMaxNormalize_singleton, ?_⟩
  intro cfg userTopLangs asOf c
  simp [scoreBatch, minMaxNormalize_singleton, List.range_succ, List.range_zero,
    List.zip_cons_cons, List.zip_nil_right, Function.comp]

/-- C6: the pipeline is deterministic — the ambient environment (wall clock,
randomness source) does not influence the output; two runs on identical
inputs and the same explicit as-of timestamp produce identical output. -/
theorem claim_C6 (env₁ env₂ : Env) (cfg : ScorerConfig) (userTopLangs : List String)
    (asOf : Nat) (cs : List CandidateSignals) :
    runPipeline env₁ cfg userTopLangs asOf cs = runPipeline env₂ cfg userTopLangs asOf cs := rfl

/-- C7: with no label signal, the difficulty classifier follows the
comment-count thresholds (≤3 → beginner, 4–15 → intermediate,
>15 → advanced), the Explanation Generator maps difficulty to the estimated
times, and the two spec scenarios hold. -/
theorem claim_C7 (labels : List String) (comments_count : Nat)
    (h₁ : labels.any (fun l => beginnerLabelFamily.contains l) = false)
    (h₂ : labels.contains "help wanted" = false) :
    (comments_count ≤ 3 →
      classifyDifficulty labels comments_count = .beginner
      ∧ estimatedTime (classifyDifficulty labels comments_count) = "1-2 hours")
    ∧ (4 ≤ comments_count → comments_count ≤ 15 →
      classifyDifficulty labels comments_count = .intermediate
      ∧ estimatedTime (classifyDifficulty labels comments_count) = "half day")
    ∧ (15 < comments_count →
      classifyDifficulty labels comments_count = .advanced
      ∧ estimatedTime (classifyDifficulty labels comments_count) = "1+ day")
    ∧ classifyDifficulty [] 2 = .beginner
    ∧ estimatedTime (classifyDifficulty [] 2) = "1-2 hours"
    ∧ classifyDifficulty [] 20 = .advanced := by
  refine ⟨?_, ?_, ?_, by decide, by decide, by decide⟩
  · intro hc
    unfold classifyDifficulty
    rw [h₁, h₂]
    simp only [if_neg Bool.false_ne_true, if_pos hc]
    exact ⟨trivial, rfl⟩
  · intro hc₁ hc₂
    unfold classifyDifficulty
    rw [h₁, h₂]
    simp only [if_neg Bool.false_ne_true]
    rw [if_neg (show ¬comments_count ≤ 3 by omega), if_pos hc₂]
    exact ⟨rfl, rfl⟩
  · intro hc
    unfold classifyDifficulty
    rw [h₁, h₂]
    simp only [if_neg Bool.false_ne_true]
    rw [if_neg (show ¬comments_count ≤ 3 by omega),
      if_neg (show ¬comments_count ≤ 15 by omega)]
    exact ⟨rfl, rfl⟩

/-- Witness for C7: an unlabeled issue with 2 comments is a beginner issue
estimated at 1-2 hours. -/
theorem claim_C7_witness :
    classifyDifficulty [] 2 = .beginner
    ∧ estimatedTime (classifyDifficulty [] 2) = "1-2 hours" :=
  (claim_C7 [] 2 (by decide) (by decide)).1 (by decide)

/-- C8: the experience level derives deterministically from a 0–9 point total
over repo, follower and star counts, with thresholds 0–3 → beginner,
4–6 → intermediate, 7–9 → advanced. -/
theorem claim_C8 (repos followers stars : Nat) :
    experiencePoints repos followers stars ≤ 9
    ∧ (experiencePoints repos followers stars ≤ 3 →
        experienceLevel repos followers stars = .beginner)
    ∧ (4 ≤ experiencePoints repos followers stars →
        experiencePoints repos followers stars ≤ 6 →
        experienceLevel repos followers stars = .intermediate)
    ∧ (7 ≤ experiencePoints repos followers stars →
        experienceLevel repos followers stars = .advanced) := by
  have h₁ : repoPoints repos ≤ 3 := by
    unfold repoPoints
    split
    · omega
    · split
      · omega
      · split <;> omega
  have h₂ : followerPoints followers ≤ 3 := by
    unfold followerPoints
    split
    · omega
    · split
      · omega
      · split <;> omega
  have h₃ : starPoints stars ≤ 3 := by
    unfold starPoints
    split
    · omega
    · split
      · omega
      · split <;> omega
  have h₉ : experiencePoints repos followers stars ≤ 9 := by
    unfold experiencePoints; omega
  refine ⟨h₉, ?_, ?_, ?_⟩
  · intro h
    simp [experienceLevel, h]
  · intro h₄ h₆
    simp [experienceLevel, h₆, show ¬experiencePoints repos followers stars ≤ 3 by omega]
  · intro h₇
    simp [experienceLevel, show ¬experiencePoints repos followers stars ≤ 3 by omega,
      show ¬experiencePoints repos followers stars ≤ 6 by omega]

/-- Witness for C8 at a user with no repos, followers or stars. -/
theorem claim_C8_witness :
    experiencePoints 0 0 0 ≤ 9 ∧ experienceLevel 0 0 0 = .beginner :=
  ⟨(claim_C8 0 0 0).1, (claim_C8 0 0 0).2.1 (by decide)⟩

/-- C9: the frontend API functions fill omitted option fields with the
defaults: `recommendRepos` sends limit 10, min_stars 10, null languages and
null exclude_repos; `recommendIssues` sends limit 20, difficulty "beginner"
and null labels. -/
theorem claim_C9 (username : String) (opts : RepoOptions) (iopts : IssueOptions) :
    (opts.limit = none → (recommendReposBody username opts).limit = 10)
    ∧ (opts.min_stars = none → (recommendReposBody username opts).min_stars = 10)
    ∧ (opts.languages = none → (recommendReposBody username opts).languages = none)
    ∧ (opts.exclude_repos = none → (recommendReposBody username opts).exclude_repos = none)
    ∧ (iopts.limit = none → (recommendIssuesBody username iopts).limit = 20)
    ∧ (iopts.difficulty = none → (recommendIssuesBody username iopts).difficulty = "beginner")
    ∧ (iopts.labels = none → (recommendIssuesBody username iopts).labels = none) := by
  refine ⟨?_, ?_, ?_, ?_, ?_, ?_, ?_⟩ <;> intro h <;>
    simp [recommendReposBody, recommendIssuesBody, jsOrNum, jsOrStr, h]

/-- Witness for C9 with both options objects empty. -/
theorem claim_C9_witness :
    (recommendReposBody "octocat" {}).limit = 10
    ∧ (recommendIssuesBody "octocat" {}).difficulty = "beginner" :=
  ⟨(claim_C9 "octocat" {} {}).1 rfl, (claim_C9 "octocat" {} {}).2.2.2.2.2.1 rfl⟩

/-- C10: the profile page requests repositories with
limit = max(30, 30 × number of languages), a profile with zero languages
counting as 3; hence the limit is always at least 30, and exactly 90 for a
zero-language profile. -/
theorem claim_C10 :
    (∀ languages : List String,
      profileDynamicLimit languages
        = max 30 (30 * (if languages.length = 0 then 3 else languages.length))
      ∧ 30 ≤ profileDynamicLimit languages
      ∧ ∀ username : String,
          (loadProfileRepoRequest username languages).limit = profileDynamicLimit languages)
    ∧ ∀ username : String, (loadProfileRepoRequest username []).limit = 90 := by
  have hge : ∀ languages : List String, 30 ≤ profileDynamicLimit languages := by
    intro languages
    simp [profileDynamicLimit]
  refine ⟨fun languages => ⟨?_, hge languages, ?_⟩, ?_⟩
  · simp [profileDynamicLimit, Nat.mul_comm]
  · intro username
    have h30 := hge languages
    simp [loadProfileRepoRequest, recommendReposBody, jsOrNum]
    omega
  · intro username
    simp [loadProfileRepoRequest, recommendReposBody, jsOrNum, profileDynamicLimit]

lemma rankLE_total (a b : Scored) : rankLE a b || rankLE b a := by
  simp only [rankLE, Bool.or_eq_true, decide_eq_true_eq]
  rcases lt_trichotomy a.score b.score with h | h | h
  · right; left; exact h
  · rcases lt_trichotomy a.stars b.stars with h₂ | h₂ | h₂
    · right; right; exact ⟨h.symm, Or.inl h₂⟩
    · rcases Nat.le_total a.idx b.idx with h₃ | h₃
      · left; right; exact ⟨h, Or.inr ⟨h₂, h₃⟩⟩
      · right; right; exact ⟨h.symm, Or.inr ⟨h₂.symm, h₃⟩⟩
    · left; right; exact ⟨h, Or.inl h₂⟩
  · left; left; exact h

lemma rankLE_trans (a b c : Scored) (hab : rankLE a b) (hbc : rankLE b c) : rankLE a c := by
  simp only [rankLE, decide_eq_true_eq] at hab hbc ⊢
  rcases hab with h₁ | ⟨h₁, h₁'⟩ <;> rcases hbc with h₂ | ⟨h₂, h₂'⟩
  · left; exact lt_trans h₂ h₁
  · left; rw [← h₂]; exact h₁
  · left; rw [h₁]; exact h₂
  · right
    refine ⟨h₁.trans h₂, ?_⟩
    rcases h₁' with hs | ⟨hseq, hidx⟩ <;> rcases h₂' with hs₂ | ⟨hseq₂, hidx₂⟩
    · exact Or.inl (lt_trans hs₂ hs)
    · exact Or.inl (by omega)
    · exact Or.inl (by omega)
    · exact Or.inr ⟨by omega, by omega⟩

lemma rankLE_score (a b : Scored) (h : rankLE a b = true) : b.score ≤ a.score := by
  simp only [rankLE, decide_eq_true_eq] at h
  rcases h with h | ⟨h, _⟩
  · exact le_of_lt h
  · exact le_of_eq h.symm

lemma attachRanks_map_item (n : Nat) (l : List Scored) :
    (attachRanks n l).map (fun r => r.item) = l := by
  induction l generalizing n with
  | nil => rfl
  | cons s t ih => simp [attachRanks, ih]

lemma attachRanks_map_rank (n : Nat) (l : List Scored) :
    (attachRanks n l).map (fun r => r.rank) = List.range' n l.length := by
  induction l generalizing n with
  | nil => rfl
  | cons s t ih => simp [attachRanks, ih, List.range'_succ]

lemma attachRanks_pairwise (R : Scored → Scored → Prop) (n : Nat) (l : List Scored)
    (h : l.Pairwise R) : (attachRanks n l).Pairwise (fun x y => R x.item y.item) := by
  have hm := attachRanks_map_item n l
  rw [← hm] at h
  exact List.pairwise_map.mp h

lemma minMaxNormalize_length (xs : List ℚ) : (minMaxNormalize xs).length = xs.length := by
  simp [minMaxNormalize]

/-- C3: for every batch, the assigned ranks are exactly 1..N (a permutation
with no gaps or duplicates), the underlying scored candidates are a
permutation of the batch, the output is sorted by the deterministic
lexicographic order (score descending, stars descending, original index
ascending), scores are non-increasing as rank increases, and the scorer
tags candidates with their original-order indices 0..N-1. -/
theorem claim_C3 :
    (∀ l : List Scored,
      (rankBatch l).map (fun r => r.rank) = List.range' 1 l.length
      ∧ ((rankBatch l).map fun r => r.item).Perm l
      ∧ (rankBatch l).Pairwise (fun a b => rankLE a.item b.item = true)
      ∧ (rankBatch l).Pairwise (fun a b => b.item.score ≤ a.item.score))
    ∧ ∀ (cfg : ScorerConfig) (userTopLangs : List String) (asOf : Nat)
        (cs : List CandidateSignals),
        (scoreBatch cfg userTopLangs asOf cs).map (fun s => s.idx) = List.range cs.length := by
  constructor
  · intro l
    have hperm : (l.mergeSort rankLE).Perm l := List.mergeSort_perm l rankLE
    have hsorted : (l.mergeSort rankLE).Pairwise (fun a b => rankLE a b = true) :=
      List.sorted_mergeSort (fun a b c => rankLE_trans a b c) rankLE_total l
    refine ⟨?_, ?_, ?_, ?_⟩
    · rw [rankBatch, attachRanks_map_rank, hperm.length_eq]
    · rw [rankBatch, attachRanks_map_item]
      exact hperm
    · exact attachRanks_pairwise _ 1 _ hsorted
    · exact (attachRanks_pairwise _ 1 _ hsorted).imp
        (fun h => rankLE_score _ _ h)
  · intro cfg userTopLangs asOf cs
    simp only [scoreBatch, List.map_map]
    have hlen : cs.length ≤ (cs.zip ((minMaxNormalize (cs.map (rawActivity cfg asOf))).zip
        (minMaxNormalize (cs.map rawGrowth)))).length := by
      simp [minMaxNormalize_length]
    exact List.map_fst_zip _ _ ((List.length_range cs.length).le.trans hlen)

/-! ## Cosine similarity bounds (spec §4.3) -/

lemma dotL_self_nonneg (u : List ℚ) : 0 ≤ dotL u u := by
  induction u with
  | nil => simp [dotL]
  | cons a t ih =>
    show 0 ≤ a * a + dotL t t
    have := mul_self_nonneg a
    linarith

lemma dotL_nonneg : ∀ u v : List ℚ, (∀ x ∈ u, 0 ≤ x) → (∀ x ∈ v, 0 ≤ x) → 0 ≤ dotL u v
  | [], _, _, _ => by simp [dotL]
  | _ :: _, [], _, _ => by simp [dotL]
  | a :: u, b :: v, hu, hv => by
    have h := dotL_nonneg u v (fun x hx => hu x (List.mem_cons_of_mem _ hx))
      (fun x hx => hv x (List.mem_cons_of_mem _ hx))
    have ha := hu a (List.mem_cons_self a u)
    have hb := hv b (List.mem_cons_self b v)
    show 0 ≤ a * b + dotL u v
    have := mul_nonneg ha hb
    linarith

lemma dotL_sq_le : ∀ u v : List ℚ, (dotL u v) ^ 2 ≤ dotL u u * dotL v v
  | [], v => by simp [dotL]
  | a :: u, [] => by
    have := dotL_self_nonneg (a :: u)
    simp [dotL]
  | a :: u, b :: v => by
    have ih := dotL_sq_le u v
    have hA := dotL_self_nonneg u
    have hB := dotL_self_nonneg v
    show (a * b + dotL u v) ^ 2 ≤ (a * a + dotL u u) * (b * b + dotL v v)
    rcases eq_or_lt_of_le hB with hB0 | hBpos
    · have hd : dotL u v = 0 := by
        have h1 : (dotL u v) ^ 2 ≤ 0 := by rw [← hB0] at ih; linarith [ih]
        have h2 := sq_nonneg (dotL u v)
        have : (dotL u v) ^ 2 = 0 := le_antisymm h1 h2
        exact pow_eq_zero_iff (n := 2) (by norm_num) |>.mp this
      rw [hd, ← hB0]
      have := mul_nonneg hA (mul_self_nonneg b)
      nlinarith [mul_self_nonneg b, hA]
    · nlinarith [sq_nonneg (a * dotL v v - b * dotL u v),
        mul_nonneg (sub_nonneg.2 ih) (mul_self_nonneg b),
        mul_nonneg (sub_nonneg.2 ih) hB, hBpos, sq_nonneg (a * b - dotL u v)]

lemma cosineSim_nonneg (u v : List ℚ) (hu : ∀ x ∈ u, 0 ≤ x) (hv : ∀ x ∈ v, 0 ≤ x) :
    0 ≤ cosineSim u v := by
  unfold cosineSim
  split
  · exact le_refl 0
  · apply div_nonneg
    · exact_mod_cast dotL_nonneg u v hu hv
    · exact mul_nonneg (Real.sqrt_nonneg _) (Real.sqrt_nonneg _)

lemma cosineSim_le_one (u v : List ℚ) (hu : ∀ x ∈ u, 0 ≤ x) (hv : ∀ x ∈ v, 0 ≤ x) :
    cosineSim u v ≤ 1 := by
  unfold cosineSim
  split
  · exact zero_le_one
  · rename_i h
    push_neg at h
    obtain ⟨h₁, h₂⟩ := h
    have hA : (0 : ℚ) < dotL u u := lt_of_le_of_ne (dotL_self_nonneg u) (Ne.symm h₁)
    have hB : (0 : ℚ) < dotL v v := lt_of_le_of_ne (dotL_self_nonneg v) (Ne.symm h₂)
    have hA' : (0 : ℝ) < ((dotL u u : ℚ) : ℝ) := by exact_mod_cast hA
    have hB' : (0 : ℝ) < ((dotL v v : ℚ) : ℝ) := by exact_mod_cast hB
    rw [div_le_one (mul_pos (Real.sqrt_pos.2 hA') (Real.sqrt_pos.2 hB'))]
    rw [← Real.sqrt_mul hA'.le]
    apply (Real.le_sqrt (by exact_mod_cast dotL_nonneg u v hu hv)
      (by positivity)).mpr
    exact_mod_cast dotL_sq_le u v

lemma tfidfVector_nonneg (corpus : List (List String)) (vocab : List String)
    (doc : List String) : ∀ x ∈ tfidfVector corpus vocab doc, 0 ≤ x := by
  intro x hx
  simp only [tfidfVector, List.mem_map] at hx
  obtain ⟨t, _, rfl⟩ := hx
  apply mul_nonneg (Nat.cast_nonneg _)
  unfold idf
  positivity

lemma foldl_min_le_init : ∀ (l : List ℚ) (a : ℚ), l.foldl min a ≤ a
  | [], a => le_refl a
  | b :: t, a => le_trans (foldl_min_le_init t (min a b)) (min_le_left a b)

lemma foldl_min_le_mem : ∀ (l : List ℚ) (a x : ℚ), x ∈ l → l.foldl min a ≤ x
  | b :: t, a, x, hx => by
    rcases List.mem_cons.mp hx with rfl | hx'
    · exact le_trans (foldl_min_le_init t (min a x)) (min_le_right a x)
    · exact foldl_min_le_mem t (min a b) x hx'

lemma init_le_foldl_max : ∀ (l : List ℚ) (a : ℚ), a ≤ l.foldl max a
  | [], a => le_refl a
  | b :: t, a => le_trans (le_max_left a b) (init_le_foldl_max t (max a b))

lemma mem_le_foldl_max : ∀ (l : List ℚ) (a x : ℚ), x ∈ l → x ≤ l.foldl max a
  | b :: t, a, x, hx => by
    rcases List.mem_cons.mp hx with rfl | hx'
    · exact le_trans (le_max_right a x) (init_le_foldl_max t (max a x))
    · exact mem_le_foldl_max t (max a b) x hx'

lemma listMin_le (xs : List ℚ) (x : ℚ) (hx : x ∈ xs) : listMin xs ≤ x := by
  cases xs with
  | nil => cases hx
  | cons a t =>
    rcases List.mem_cons.mp hx with rfl | hx'
    · exact foldl_min_le_init t x
    · exact foldl_min_le_mem t a x hx'

lemma le_listMax (xs : List ℚ) (x : ℚ) (hx : x ∈ xs) : x ≤ listMax xs := by
  cases xs with
  | nil => cases hx
  | cons a t =>
    rcases List.mem_cons.mp hx with rfl | hx'
    · exact init_le_foldl_max t x
    · exact mem_le_foldl_max t a x hx'

lemma minMaxNormalize_mem_bounds (xs : List ℚ) (y : ℚ) (hy : y ∈ minMaxNormalize xs) :
    0 ≤ y ∧ y ≤ 1 := by
  simp only [minMaxNormalize, List.mem_map] at hy
  obtain ⟨x, hx, rfl⟩ := hy
  by_cases h : listMax xs = listMin xs
  · rw [if_pos h]; norm_num
  · rw [if_neg h]
    have hlo := listMin_le xs x hx
    have hhi := le_listMax xs x hx
    have hlt : listMin xs < listMax xs := lt_of_le_of_ne (hlo.trans hhi) (Ne.symm h)
    constructor
    · apply div_nonneg <;> linarith
    · rw [div_le_one (by linarith)]
      linarith

lemma clamp01_bounds (x : ℚ) : 0 ≤ clamp01 x ∧ clamp01 x ≤ 1 :=
  ⟨le_max_left 0 _, max_le zero_le_one (min_le_left 1 x)⟩

lemma skillMatchScore_bounds (cfg : ScorerConfig) (userTopLangs : List String)
    (c : CandidateSignals) (hb : 0 ≤ cfg.langBonus) (hs : 0 ≤ c.sim) :
    0 ≤ skillMatchScore cfg userTopLangs c ∧ skillMatchScore cfg userTopLangs c ≤ 1 := by
  unfold skillMatchScore
  constructor
  · apply le_min zero_le_one
    have : (0 : ℚ) ≤ if userTopLangs.contains c.language then cfg.langBonus else 0 := by
      split
      · exact hb
      · exact le_refl 0
    linarith
  · exact min_le_left _ _

lemma beginnerFriendlinessScore_bounds (cfg : ScorerConfig) (c : CandidateSignals) :
    0 ≤ beginnerFriendlinessScore cfg c ∧ beginnerFriendlinessScore cfg c ≤ 1 := by
  unfold beginnerFriendlinessScore
  constructor
  · apply le_min zero_le_one
    have h₁ : (0 : ℚ) ≤ if c.labels.any (fun l => beginnerLabelFamily.contains l)
        then 0.4 else 0 := by split <;> norm_num
    have h₂ : (0 : ℚ) ≤ if c.hasContributingGuide then 0.3 else 0 := by split <;> norm_num
    have h₃ : (0 : ℚ) ≤ if cfg.minReadmeLength ≤ c.readmeLength then 0.3 else 0 := by
      split <;> norm_num
    linarith
  · exact min_le_left _ _

/-- C2: cosine similarity of TF-IDF vectors always lies in [0,1] (TF-IDF
vectors are non-negative, so it is never negative), and for valid scorer
inputs (non-negative language bonus, similarities from the engine's [0,1]
range) every named sub-score in the breakdown and every final score lies
in [0,1]. -/
theorem claim_C2 :
    (∀ (corpus : List (List String)) (vocab : List String) (d₁ d₂ : List String),
      0 ≤ cosineSim (tfidfVector corpus vocab d₁) (tfidfVector corpus vocab d₂)
      ∧ cosineSim (tfidfVector corpus vocab d₁) (tfidfVector corpus vocab d₂) ≤ 1)
    ∧ ∀ (cfg : ScorerConfig) (userTopLangs : List String) (asOf : Nat)
        (cs : List CandidateSignals) (s : Scored),
        0 ≤ cfg.langBonus → (∀ c ∈ cs, 0 ≤ c.sim) →
        s ∈ scoreBatch cfg userTopLangs asOf cs →
        (0 ≤ s.breakdown.skillMatch ∧ s.breakdown.skillMatch ≤ 1)
        ∧ (0 ≤ s.breakdown.activity ∧ s.breakdown.activity ≤ 1)
        ∧ (0 ≤ s.breakdown.beginnerFriendliness ∧ s.breakdown.beginnerFriendliness ≤ 1)
        ∧ (0 ≤ s.breakdown.growthPotential ∧ s.breakdown.growthPotential ≤ 1)
        ∧ (0 ≤ s.score ∧ s.score ≤ 1) := by
  constructor
  · intro corpus vocab d₁ d₂
    exact ⟨cosineSim_nonneg _ _ (tfidfVector_nonneg corpus vocab d₁)
        (tfidfVector_nonneg corpus vocab d₂),
      cosineSim_le_one _ _ (tfidfVector_nonneg corpus vocab d₁)
        (tfidfVector_nonneg corpus vocab d₂)⟩
  · intro cfg userTopLangs asOf cs s hb hsim hs
    simp only [scoreBatch, List.mem_map] at hs
    obtain ⟨p, hp, rfl⟩ := hs
    obtain ⟨i, c, act, gp⟩ := p
    have hmem := List.of_mem_zip hp
    have hc : c ∈ cs := (List.of_mem_zip hmem.2).1
    have hrest := (List.of_mem_zip hmem.2).2
    have hact : act ∈ minMaxNormalize (cs.map (rawActivity cfg asOf)) :=
      (List.of_mem_zip hrest).1
    have hgp : gp ∈ minMaxNormalize (cs.map rawGrowth) := (List.of_mem_zip hrest).2
    have hactb := minMaxNormalize_mem_bounds _ _ hact
    have hgpb := minMaxNormalize_mem_bounds _ _ hgp
    have hsm := skillMatchScore_bounds cfg userTopLangs c hb (hsim c hc)
    have hbf := beginnerFriendlinessScore_bounds cfg c
    exact ⟨hsm, hactb, hbf, hgpb, clamp01_bounds _⟩

/-- Shared concrete batch used by witnesses: a trivial configuration and a
single zero-signal candidate, whose scored form evaluates in closed form. -/
lemma scoreBatch_example :
    scoreBatch ⟨fun _ => 0, 0, 1⟩ [] 0 [⟨0, "Python", 0, 0, 0, [], false, 0, 0⟩]
      = [⟨0, 0, ⟨0, 1, 0, 1⟩, 0.4⟩] := by
  norm_num [scoreBatch, minMaxNormalize_singleton, List.range_succ, List.range_zero,
    List.zip_cons_cons, List.zip_nil_right, rawActivity, rawGrowth, recencyBoost,
    skillMatchScore, beginnerFriendlinessScore, finalScore, clamp01, min_def, max_def]

/-- Witness for C2 at a one-term corpus and the concrete one-candidate batch. -/
theorem claim_C2_witness :
    (0 ≤ cosineSim (tfidfVector [["rust"]] ["rust"] ["rust"])
        (tfidfVector [["rust"]] ["rust"] ["rust"])
      ∧ cosineSim (tfidfVector [["rust"]] ["rust"] ["rust"])
        (tfidfVector [["rust"]] ["rust"] ["rust"]) ≤ 1)
    ∧ (0 ≤ (⟨0, 0, ⟨0, 1, 0, 1⟩, 0.4⟩ : Scored).score
      ∧ (⟨0, 0, ⟨0, 1, 0, 1⟩, 0.4⟩ : Scored).score ≤ 1) :=
  ⟨claim_C2.1 [["rust"]] ["rust"] ["rust"] ["rust"],
    (claim_C2.2 ⟨fun _ => 0, 0, 1⟩ [] 0 [⟨0, "Python", 0, 0, 0, [], false, 0, 0⟩]
      ⟨0, 0, ⟨0, 1, 0, 1⟩, 0.4⟩ (le_refl 0)
      (by intro c hc; rw [List.mem_singleton] at hc; subst hc; norm_num)
      (by rw [scoreBatch_example]; exact List.mem_singleton_self _)).2.2.2.2⟩

/-- C5: on a degenerate corpus (fewer than 2 non-empty documents, or empty
vocabulary) the Similarity Engine reports similarity 0 for every candidate
and raises the insufficient-corpus signal for the Cold-Start Handler; the
engine is a total function into `SimilarityResult`, so the condition never
escapes as an error. -/
theorem claim_C5 (maxVocab : Nat) (userDoc : List String)
    (candidateDocs : List (List String))
    (hdeg : (((userDoc :: candidateDocs).filter fun d => d ≠ []).length < 2)
      ∨ buildVocab maxVocab (userDoc :: candidateDocs) = []) :
    (similarityEngine maxVocab userDoc candidateDocs).sims
        = List.replicate candidateDocs.length 0
    ∧ (similarityEngine maxVocab userDoc candidateDocs).insufficientCorpus = true := by
  simp only [similarityEngine]
  rw [if_pos hdeg]
  refine ⟨?_, rfl⟩
  simp [List.map_const']

/-- Witness for C5: a corpus of two empty documents is degenerate. -/
theorem claim_C5_witness :
    (similarityEngine 0 [] [[]]).sims = List.replicate 1 0
    ∧ (similarityEngine 0 [] [[]]).insufficientCorpus = true :=
  claim_C5 0 [] [[]] (by left; decide)
